import Mathlib

/-!
Shallow embedding of the FotoReport MVP application (src/app.py) and proofs
about it.  Python values that can reach the polymorphic helpers are modelled
by the inductive type `PyVal`; byte strings are `List Nat` (each entry a byte
value); Python floats that only ever hold page coordinates are modelled as
exact rationals; fallible Python code returns `Except PyErr`.
-/

set_option maxRecDepth 10000

/-- Python exception classes that the embedded fragments can raise. -/
inductive PyErr where
  | valueError
  | typeError
deriving DecidableEq, Repr

/-- Calendar date, as held by a Python `datetime.date` value. -/
structure Date where
  year : Nat
  month : Nat
  day : Nat
deriving DecidableEq, Repr

/-- Date plus time of day, as held by a Python `datetime.datetime` value. -/
structure DateTime where
  date : Date
  hour : Nat
  minute : Nat
  second : Nat
deriving DecidableEq, Repr

/-- Python runtime values that can reach the schema-polymorphic helpers of
app.py: `None`, booleans, integers, text, byte strings (`bytes`/`bytearray`),
memoryviews, dates and datetimes. -/
inductive PyVal where
  | vNone
  | vBool (b : Bool)
  | vInt (n : Int)
  | vStr (s : String)
  | vBytes (bs : List Nat)
  | vMemView (bs : List Nat)
  | vDate (d : Date)
  | vDateTime (dt : DateTime)
deriving DecidableEq, Repr

/-- Whitespace characters stripped by Python `str.strip` (ASCII subset). -/
def wsChar (c : Char) : Bool :=
  c == ' ' || c == '\t' || c == '\n' || c == '\r' || c == '\x0b' || c == '\x0c'

/-- Python `str.strip` on a character list: drop whitespace at both ends. -/
def pyStripList (l : List Char) : List Char :=
  ((l.dropWhile wsChar).reverse.dropWhile wsChar).reverse

/-- ASCII lower-casing of one character, as Python `str.lower` does for the
ASCII range (the usernames and flag values in this app are ASCII). -/
def pyLowerChar (c : Char) : Char :=
  if 'A' ≤ c ∧ c ≤ 'Z' then Char.ofNat (c.toNat + 32) else c

/-- Python `s.strip().lower()`, the username normalisation of app.py. -/
def pyNormalize (s : String) : String :=
  String.mk ((pyStripList s.data).map pyLowerChar)

/-- Python `str.strip` on a string value. -/
def pyStrip (s : String) : String :=
  String.mk (pyStripList s.data)

/-- Python `str.lower` on a string value (ASCII range). -/
def pyLowerStr (s : String) : String :=
  String.mk (s.data.map pyLowerChar)

/-- Decimal digit character. -/
def digitChar (n : Nat) : Char := Char.ofNat (48 + n)

/-- Decimal digits of a natural number, most significant first; the fuel is
an upper bound on the number of digits (the number itself suffices). -/
def natDigitsAux : Nat → Nat → List Char
  | 0, _ => []
  | fuel + 1, n =>
    if n < 10 then [digitChar n]
    else natDigitsAux fuel (n / 10) ++ [digitChar (n % 10)]

/-- Decimal rendering of a natural number. -/
def natDigits (n : Nat) : List Char := natDigitsAux (n + 1) n

/-- Two-digit zero-padded decimal rendering (months, days, time fields). -/
def pad2 (n : Nat) : List Char := [digitChar (n / 10 % 10), digitChar (n % 10)]

/-- Four-digit zero-padded decimal rendering (years). -/
def pad4 (n : Nat) : List Char :=
  [digitChar (n / 1000 % 10), digitChar (n / 100 % 10),
   digitChar (n / 10 % 10), digitChar (n % 10)]

/-- Python `str(date)` / `date.strftime("%Y-%m-%d")`: ISO rendering. -/
def formatYMD (d : Date) : String :=
  String.mk (pad4 d.year ++ '-' :: pad2 d.month ++ '-' :: pad2 d.day)

/-- Python `datetime.strftime("%Y-%m-%d %H:%M:%S")`. -/
def formatYMDHMS (dt : DateTime) : String :=
  String.mk (pad4 dt.date.year ++ '-' :: pad2 dt.date.month ++ '-' :: pad2 dt.date.day
    ++ ' ' :: pad2 dt.hour ++ ':' :: pad2 dt.minute ++ ':' :: pad2 dt.second)

/-- Python `str(v)` for the values that can reach the active-flag check.
The memoryview rendering abstracts the memory address; every rendering of a
non-text value is outside the accepted flag list, as in Python. -/
def pyStr : PyVal → String
  | .vNone => "None"
  | .vBool true => "True"
  | .vBool false => "False"
  | .vInt n =>
    if n < 0 then String.mk ('-' :: natDigits n.natAbs)
    else String.mk (natDigits n.toNat)
  | .vStr s => s
  | .vBytes bs => String.mk ('b' :: '\x27' :: bs.map Char.ofNat ++ ['\x27'])
  | .vMemView _ => "<memory>"
  | .vDate d => formatYMD d
  | .vDateTime dt => formatYMDHMS dt

/-- ASCII decimal digit test. -/
def isDigitChar (c : Char) : Bool := '0' ≤ c && c ≤ '9'

/-- Value of a non-empty all-digit character list. -/
def digitsVal (l : List Char) : Nat :=
  l.foldl (fun a c => a * 10 + (c.toNat - 48)) 0

/-- Parse an optionally signed decimal integer after stripping whitespace,
as Python `int(str)` does for ASCII input. -/
def parseIntList (l : List Char) : Option Int :=
  let t := pyStripList l
  match t with
  | '+' :: rest =>
    if rest ≠ [] ∧ rest.all isDigitChar then some (Int.ofNat (digitsVal rest)) else none
  | '-' :: rest =>
    if rest ≠ [] ∧ rest.all isDigitChar then some (-(Int.ofNat (digitsVal rest))) else none
  | _ =>
    if t ≠ [] ∧ t.all isDigitChar then some (Int.ofNat (digitsVal t)) else none

/-- Python `int(v)`: which values convert to an integer, and to what.
`None`, text without an integer form, memoryviews, dates and datetimes
raise; booleans and integers convert directly; text and byte strings are
parsed as decimals. -/
def pyToInt : PyVal → Option Int
  | .vBool b => some (if b then 1 else 0)
  | .vInt n => some n
  | .vStr s => parseIntList s.data
  | .vBytes bs => parseIntList (bs.map Char.ofNat)
  | _ => none

/-- Value of one hex digit character, or `none` for a non-hex character. -/
def hexVal (c : Char) : Option Nat :=
  if '0' ≤ c ∧ c ≤ '9' then some (c.toNat - 48)
  else if 'a' ≤ c ∧ c ≤ 'f' then some (c.toNat - 87)
  else if 'A' ≤ c ∧ c ≤ 'F' then some (c.toNat - 55)
  else none

/-- Parse an even-length hex digit list into bytes, two digits per byte. -/
def hexPairs : List Char → Option (List Nat)
  | [] => some []
  | c1 :: c2 :: rest =>
    match hexVal c1, hexVal c2, hexPairs rest with
    | some a, some b, some bs => some ((a * 16 + b) :: bs)
    | _, _, _ => none
  | [_] => none

/-- Python `bytes.fromhex`: ASCII whitespace is skipped, then an even number
of hex digits is required; anything else raises `ValueError` (here `none`). -/
def bytesFromHex (s : String) : Option (List Nat) :=
  hexPairs (s.data.filter (fun c => !wsChar c))

/-- UTF-8 encoding of one character (by code point ranges). -/
def charUtf8 (c : Char) : List Nat :=
  let n := c.toNat
  if n < 128 then [n]
  else if n < 2048 then [192 + n / 64, 128 + n % 64]
  else if n < 65536 then [224 + n / 4096, 128 + n / 64 % 64, 128 + n % 64]
  else [240 + n / 262144, 128 + n / 4096 % 64, 128 + n / 64 % 64, 128 + n % 64]

/-- Python `str.encode("utf-8")`. -/
def utf8Encode (s : String) : List Nat := s.data.flatMap charUtf8

/-- Embedding of app.py `_as_bytes` (lines 128-141): `None` maps to empty
bytes, memoryviews and byte strings pass through, text is hex-decoded with a
UTF-8 fallback, and anything else goes through Python `bytes(v)` - which
succeeds on booleans and non-negative integers (producing that many zero
bytes) and raises on negative integers, dates and datetimes. -/
def _as_bytes : PyVal → Except PyErr (List Nat)
  | .vNone => .ok []
  | .vMemView bs => .ok bs
  | .vBytes bs => .ok bs
  | .vStr s =>
    match bytesFromHex s with
    | some bs => .ok bs
    | none => .ok (utf8Encode s)
  | .vBool b => .ok (List.replicate (if b then 1 else 0) 0)
  | .vInt n => if n < 0 then .error .valueError else .ok (List.replicate n.toNat 0)
  | .vDate _ => .error .typeError
  | .vDateTime _ => .error .typeError

/-- Gregorian leap-year rule, as used by `datetime`. -/
def isLeap (y : Nat) : Bool := y % 4 == 0 && (y % 100 != 0 || y % 400 == 0)

/-- Days in a month, as validated by `datetime.strptime`. -/
def daysInMonth (y m : Nat) : Nat :=
  if m = 1 ∨ m = 3 ∨ m = 5 ∨ m = 7 ∨ m = 8 ∨ m = 10 ∨ m = 12 then 31
  else if m = 4 ∨ m = 6 ∨ m = 9 ∨ m = 11 then 30
  else if isLeap y then 29 else 28

/-- Split a character list at every dash. -/
def splitDash : List Char → List (List Char)
  | [] => [[]]
  | '-' :: rest => [] :: splitDash rest
  | c :: rest =>
    match splitDash rest with
    | g :: gs => (c :: g) :: gs
    | [] => [[c]]

/-- Python `datetime.strptime(s, "%Y-%m-%d")`: a four-digit year, a one- or
two-digit month and day, dash separated, nothing left over, and the result
must be a valid calendar date with year at least 1. `none` models the
`ValueError` raised on any other input. -/
def strptimeYMD (s : String) : Option Date :=
  match splitDash s.data with
  | [ys, ms, ds] =>
    if ys.length = 4 ∧ ys.all isDigitChar ∧
       (ms.length = 1 ∨ ms.length = 2) ∧ ms.all isDigitChar ∧
       (ds.length = 1 ∨ ds.length = 2) ∧ ds.all isDigitChar then
      let y := digitsVal ys
      let m := digitsVal ms
      let d := digitsVal ds
      if 1 ≤ y ∧ 1 ≤ m ∧ m ≤ 12 ∧ 1 ≤ d ∧ d ≤ daysInMonth y m then
        some ⟨y, m, d⟩
      else none
    else none
  | _ => none

/-- Embedding of app.py `_date_for` (lines 117-125), with the introspected
column type `udt` passed explicitly in place of the `_col_udt` lookup.  The
`isinstance(value, date)` tests of the source are true for `datetime` values
as well, since Python `datetime` is a subclass of `date`: for a date-typed
column both dates and datetimes pass through unchanged and anything else is
parsed with `strptime` - which raises (`Except.error`) on a non-parseable
string.  For any other column type dates and datetimes are formatted
date-only with `strftime("%Y-%m-%d")` and anything else is stringified. -/
def _date_for (udt : String) (value : PyVal) : Except PyErr PyVal :=
  if udt = "date" then
    match value with
    | .vDate d => .ok (.vDate d)
    | .vDateTime dt => .ok (.vDateTime dt)
    | v =>
      match strptimeYMD (pyStr v) with
      | some d => .ok (.vDate d)
      | none => .error .valueError
  else
    match value with
    | .vDate d => .ok (.vStr (formatYMD d))
    | .vDateTime dt => .ok (.vStr (formatYMD dt.date))
    | v => .ok (.vStr (pyStr v))

/-- Embedding of app.py `_now_for` (lines 108-114), with the introspected
column type and the current instant passed explicitly: a timestamp column
receives the datetime, a date column the current date, and any other column
the formatted string. -/
def _now_for (udt : String) (now : DateTime) : PyVal :=
  if udt = "timestamp" ∨ udt = "timestamptz" then .vDateTime now
  else if udt = "date" then .vDate now.date
  else .vStr (formatYMDHMS now)

/-- Embedding of app.py `_activo_value` (lines 98-100): the value written to
an active-flag column is `True` for a boolean column and `1` otherwise. -/
def _activo_value (udt : String) : PyVal :=
  if udt = "bool" then .vBool true else .vInt 1

/-- Embedding of app.py `_activo_where` (lines 103-105): the SQL predicate
injected into listing queries, `col IS TRUE` for a boolean column and
`COALESCE(col,0)=1` otherwise, with an optional table alias prepended. -/
def _activo_where (udt : String) (al : Option String) : String :=
  let col := (match al with | some a => a ++ "." | none => "") ++ "activo"
  if udt = "bool" then col ++ " IS TRUE" else "COALESCE(" ++ col ++ ",0)=1"

/-- SQL values an active-flag column can hold. -/
inductive SqlVal where
  | null
  | b (v : Bool)
  | i (n : Int)
deriving DecidableEq, Repr

/-- Modelled from SQL semantics (external to the repository): evaluation of
the predicate `col IS TRUE` - false on NULL and on everything except the
boolean TRUE. -/
def sqlIsTrue : SqlVal → Bool
  | .b true => true
  | _ => false

/-- Modelled from SQL semantics (external to the repository): evaluation of
the predicate `COALESCE(col,0)=1` - NULL coalesces to 0, then compare to 1. -/
def sqlCoalesce0Eq1 : SqlVal → Bool
  | .null => false
  | .b _ => false
  | .i n => n == 1

/-- Evaluation of whichever predicate `_activo_where` injects for a column of
type `udt`, on the stored column value. -/
def activoPredHolds (udt : String) (v : SqlVal) : Bool :=
  if udt = "bool" then sqlIsTrue v else sqlCoalesce0Eq1 v

/-- The SQL value stored when the application writes `_activo_value udt`. -/
def activoValueSql (udt : String) : SqlVal :=
  match _activo_value udt with
  | .vBool b => .b b
  | .vInt n => .i n
  | _ => .null

/-- List of textual flag values accepted by the fallback branch of the
active check in `verify_login` (app.py line 220). -/
def activoAllowList : List String := ["1", "true", "t", "yes", "y"]

/-- Embedding of the active-flag check of `verify_login` (app.py lines
216-221): try `int(activo) != 1`; when the conversion raises, accept exactly
the textual forms in `activoAllowList` (lower-cased). -/
def activoCheck (v : PyVal) : Bool :=
  match pyToInt v with
  | some n => n == 1
  | none => activoAllowList.contains (pyLowerStr (pyStr v))

/-- Reduction modulo the 32-bit word size. -/
def w32 (n : Nat) : Nat := n % 4294967296

/-- 32-bit addition. -/
def add32 (a b : Nat) : Nat := (a + b) % 4294967296

/-- 32-bit right rotation by `k` positions. -/
def rotr (k n : Nat) : Nat := (n >>> k) + ((n % (2 ^ k)) <<< (32 - k))

/-- 32-bit bitwise complement. -/
def not32 (n : Nat) : Nat := Nat.xor n 4294967295

/-- Big-endian byte rendering of a 32-bit word. -/
def word32Bytes (n : Nat) : List Nat :=
  [n >>> 24 % 256, n >>> 16 % 256, n >>> 8 % 256, n % 256]

/-- Big-endian byte rendering of a 64-bit length field. -/
def word64Bytes (n : Nat) : List Nat :=
  [n >>> 56 % 256, n >>> 48 % 256, n >>> 40 % 256, n >>> 32 % 256,
   n >>> 24 % 256, n >>> 16 % 256, n >>> 8 % 256, n % 256]

/-- State of the SHA-256 compression function: eight 32-bit words. -/
structure Sha256State where
  a : Nat
  b : Nat
  c : Nat
  d : Nat
  e : Nat
  f : Nat
  g : Nat
  h : Nat

/-- Initial SHA-256 hash value (FIPS 180-4), written in decimal. -/
def sha256Init : Sha256State :=
  ⟨1779033703, 3144134277, 1013904242, 2773480762,
   1359893119, 2600822924, 528734635, 1541459225⟩

/-- SHA-256 round constants (FIPS 180-4), written in decimal. -/
def sha256K : List Nat :=
  [1116352408, 1899447441, 3049323471, 3921009573,
   961987163, 1508970993, 2453635748, 2870763221,
   3624381080, 310598401, 607225278, 1426881987,
   1925078388, 2162078206, 2614888103, 3248222580,
   3835390401, 4022224774, 264347078, 604807628,
   770255983, 1249150122, 1555081692, 1996064986,
   2554220882, 2821834349, 2952996808, 3210313671,
   3336571891, 3584528711, 113926993, 338241895,
   666307205, 773529912, 1294757372, 1396182291,
   1695183700, 1986661051, 2177026350, 2456956037,
   2730485921, 2820302411, 3259730800, 3345764771,
   3516065817, 3600352804, 4094571909, 275423344,
   430227734, 506948616, 659060556, 883997877,
   958139571, 1322822218, 1537002063, 1747873779,
   1955562222, 2024104815, 2227730452, 2361852424,
   2428436474, 2756734187, 3204031479, 3329325298]

/-- SHA-256 padding: append 0x80, zero bytes up to 56 mod 64, and the
bit length as a 64-bit big-endian field. -/
def sha256Pad (msg : List Nat) : List Nat :=
  msg ++ 128 :: List.replicate ((119 - msg.length % 64) % 64) 0
      ++ word64Bytes (msg.length * 8)

/-- Break a byte list into 64-byte chunks; the fuel is an upper bound on the
number of steps (the list length suffices). -/
def chunk64Aux : Nat → List Nat → List (List Nat)
  | 0, _ => []
  | _, [] => []
  | fuel + 1, l => l.take 64 :: chunk64Aux fuel (l.drop 64)

/-- Break a byte list into 64-byte chunks. -/
def chunk64 (l : List Nat) : List (List Nat) := chunk64Aux l.length l

/-- Group bytes four at a time into big-endian 32-bit words. -/
def bytesToWords : List Nat → List Nat
  | b1 :: b2 :: b3 :: b4 :: rest =>
    (b1 * 16777216 + b2 * 65536 + b3 * 256 + b4) :: bytesToWords rest
  | _ => []

/-- SHA-256 small sigma 0. -/
def ssig0 (x : Nat) : Nat :=
  w32 (Nat.xor (Nat.xor (rotr 7 x) (rotr 18 x)) (x >>> 3))

/-- SHA-256 small sigma 1. -/
def ssig1 (x : Nat) : Nat :=
  w32 (Nat.xor (Nat.xor (rotr 17 x) (rotr 19 x)) (x >>> 10))

/-- SHA-256 big sigma 0. -/
def bsig0 (x : Nat) : Nat :=
  w32 (Nat.xor (Nat.xor (rotr 2 x) (rotr 13 x)) (rotr 22 x))

/-- SHA-256 big sigma 1. -/
def bsig1 (x : Nat) : Nat :=
  w32 (Nat.xor (Nat.xor (rotr 6 x) (rotr 11 x)) (rotr 25 x))

/-- One step of the SHA-256 message-schedule extension. -/
def scheduleNext (ws : List Nat) : Nat :=
  add32 (add32 (ws.getD (ws.length - 16) 0) (ssig0 (ws.getD (ws.length - 15) 0)))
        (add32 (ws.getD (ws.length - 7) 0) (ssig1 (ws.getD (ws.length - 2) 0)))

/-- Extend the 16 block words by `k` further schedule words. -/
def scheduleExt : Nat → List Nat → List Nat
  | 0, ws => ws
  | k + 1, ws => scheduleExt k (ws ++ [scheduleNext ws])

/-- One SHA-256 compression round for a given round constant and schedule
word. -/
def sha256Round (st : Sha256State) (kw : Nat × Nat) : Sha256State :=
  let ch := w32 (Nat.xor (Nat.land st.e st.f) (Nat.land (not32 st.e) st.g))
  let maj := w32 (Nat.xor (Nat.xor (Nat.land st.a st.b) (Nat.land st.a st.c))
                          (Nat.land st.b st.c))
  let t1 := add32 (add32 st.h (bsig1 st.e)) (add32 ch (add32 kw.1 kw.2))
  let t2 := add32 (bsig0 st.a) maj
  ⟨add32 t1 t2, st.a, st.b, st.c, add32 st.d t1, st.e, st.f, st.g⟩

/-- Process one 64-byte block. -/
def sha256Block (st : Sha256State) (block : List Nat) : Sha256State :=
  let ws := scheduleExt 48 (bytesToWords block)
  let r := (sha256K.zip ws).foldl sha256Round st
  ⟨add32 st.a r.a, add32 st.b r.b, add32 st.c r.c, add32 st.d r.d,
   add32 st.e r.e, add32 st.f r.f, add32 st.g r.g, add32 st.h r.h⟩

/-- Serialise the final hash state, big-endian. -/
def sha256StateBytes (st : Sha256State) : List Nat :=
  word32Bytes st.a ++ word32Bytes st.b ++ word32Bytes st.c ++ word32Bytes st.d ++
  word32Bytes st.e ++ word32Bytes st.f ++ word32Bytes st.g ++ word32Bytes st.h

/-- SHA-256 of a byte string (FIPS 180-4), the hash primitive behind
`hashlib.pbkdf2_hmac("sha256", ...)`. -/
def sha256 (msg : List Nat) : List Nat :=
  sha256StateBytes ((chunk64 (sha256Pad msg)).foldl sha256Block sha256Init)

/-- HMAC-SHA-256 (RFC 2104): keys longer than the 64-byte block are hashed,
shorter ones zero-padded; inner and outer pads use 0x36 and 0x5c. -/
def hmacSha256 (key msg : List Nat) : List Nat :=
  let k0 := if 64 < key.length then sha256 key else key
  let kp := k0 ++ List.replicate (64 - k0.length) 0
  sha256 (kp.map (fun b => Nat.xor b 92) ++ sha256 (kp.map (fun b => Nat.xor b 54) ++ msg))

/-- Iteration core of one PBKDF2 block: repeatedly re-HMAC and XOR into the
accumulator. -/
def pbkdf2Iter (pw : List Nat) : Nat → List Nat → List Nat → List Nat
  | 0, _, acc => acc
  | n + 1, u, acc =>
    let u2 := hmacSha256 pw u
    pbkdf2Iter pw n u2 (List.zipWith Nat.xor acc u2)

/-- One PBKDF2 output block `F(pw, salt, iters, blk)` (RFC 2898). -/
def pbkdf2F (pw salt : List Nat) (iters blk : Nat) : List Nat :=
  let u1 := hmacSha256 pw (salt ++ word32Bytes blk)
  pbkdf2Iter pw (iters - 1) u1 u1

/-- PBKDF2-HMAC-SHA256 with an explicit derived-key length, the embedding of
`hashlib.pbkdf2_hmac("sha256", password, salt, iterations)` whose default
length is the 32-byte SHA-256 digest size. -/
def pbkdf2HmacSha256 (pw salt : List Nat) (iters dklen : Nat) : List Nat :=
  ((List.range ((dklen + 31) / 32)).flatMap (fun i => pbkdf2F pw salt iters (i + 1))).take dklen

/-- Embedding of app.py `hash_password` (lines 172-173):
PBKDF2-HMAC-SHA256 of the UTF-8 password with the given salt, 120000
iterations, default (32-byte) digest length. -/
def hash_password (password : String) (salt : List Nat) : List Nat :=
  pbkdf2HmacSha256 (utf8Encode password) salt 120000 32

/-- One row of the `usuarios` table as fetched by `verify_login`; the salt,
hash and active-flag columns keep their schema-polymorphic Python form. -/
structure UserRow where
  id : Int
  usuario : String
  nombre_completo : String
  rol : String
  pw_salt : PyVal
  pw_hash : PyVal
  activo : PyVal
deriving DecidableEq, Repr

/-- Identity record returned by a successful login. -/
structure Ident where
  id : Int
  usuario : String
  nombre : String
  rol : String
deriving DecidableEq, Repr

/-- Final credential comparison of `verify_login` (app.py lines 225-229):
recompute the candidate hash from the stored salt and compare against the
stored hash with `secrets.compare_digest` (a constant-time equality check,
which as a function is plain equality); on a match return the identity
record built from the row. -/
def check_hash (password : String) (salt stored : List Nat) (r : UserRow) :
    Except PyErr (Option Ident) :=
  if hash_password password salt = stored then
    .ok (some ⟨r.id, r.usuario, r.nombre_completo, r.rol⟩)
  else
    .ok none

/-- Byte coercion of the stored salt and hash in `verify_login` (app.py
lines 223-224); a coercion exception propagates. -/
def check_creds (password : String) (r : UserRow) : Except PyErr (Option Ident) :=
  match _as_bytes r.pw_salt with
  | .error e => .error e
  | .ok salt =>
    match _as_bytes r.pw_hash with
    | .error e => .error e
    | .ok stored => check_hash password salt stored r

/-- Embedding of app.py `verify_login` (lines 203-229) over an explicit
`usuarios` table: fetch the rows whose `usuario` equals the
stripped-and-lower-cased input (in table order), stop with `none` when there
are none; on the first row run the active-flag check, then coerce salt and
hash to bytes and compare hashes (`check_creds`, `check_hash`). -/
def verify_login (db : List UserRow) (usuario password : String) :
    Except PyErr (Option Ident) :=
  match db.filter (fun r => r.usuario == pyNormalize usuario) with
  | [] => .ok none
  | r :: _ =>
    if activoCheck r.activo then check_creds password r
    else .ok none

/-- Width of an A4 page in points (reportlab `A4`), as an exact rational:
210 mm at 72 points per 25.4 mm. -/
def pageW : ℚ := 75600 / 127

/-- Height of an A4 page in points (reportlab `A4`), as an exact rational:
297 mm at 72 points per 25.4 mm. -/
def pageH : ℚ := 106920 / 127

/-- Maximal image width in `build_pdf_cliente`: full content width. -/
def max_w : ℚ := pageW - 80

/-- Maximal image height in `build_pdf_cliente`: half the usable height. -/
def max_h : ℚ := (pageH - 170) / 2

/-- Embedding of app.py `_fit` (lines 322-326): scale `(iw, ih)` to fit the
box `(mw, mh)` preserving the aspect ratio, falling back to the box itself
when a dimension is degenerate. -/
def _fit (iw ih : Int) (mw mh : ℚ) : ℚ × ℚ :=
  if iw ≤ 0 ∨ ih ≤ 0 then (mw, mh)
  else
    let s := min (mw / (iw : ℚ)) (mh / (ih : ℚ))
    ((iw : ℚ) * s, (ih : ℚ) * s)

/-- One photo row as it enters the PDF photo loop: either it decodes to an
image of intrinsic size `iw` by `ih` pixels with a caption, or its decode or
draw raises (`bad`). -/
inductive Foto where
  | ok (iw ih : Int) (comentario : String)
  | bad
deriving DecidableEq, Repr

/-- Visible output events of the PDF canvas in the photo loop. -/
inductive Ev where
  | drawImage (x y w h : ℚ)
  | drawText (x y : ℚ) (s : String)
  | pageBreak
deriving DecidableEq, Repr

/-- Whether a photo renders successfully. -/
def Foto.isOk : Foto → Bool
  | .ok _ _ _ => true
  | .bad => false

/-- Placeholder line emitted for an unrenderable photo (app.py line 427). -/
def placeholderMsg : String := "[No se pudo renderizar una imagen]"

/-- Embedding of the photo loop of `build_pdf_cliente` (app.py lines
399-430) for one report, producing the canvas event trace: `i` is the
enumeration index, `y` the vertical cursor.  A good photo is drawn scaled by
`_fit`, its stripped caption (truncated to 140 characters) drawn below when
non-empty, the cursor advanced by the drawn height plus 30; after every
second photo, when more photos remain, a page break resets the cursor to the
top.  A failing photo emits the placeholder line at the current cursor and
moves the cursor down 20 points.  The trailing `showPage` after the loop is
the final page break. -/
def build_pdf_fotos : Nat → ℚ → List Foto → List Ev
  | _, _, [] => [Ev.pageBreak]
  | i, y, Foto.bad :: rest =>
    Ev.drawText 40 y placeholderMsg :: build_pdf_fotos (i + 1) (y - 20) rest
  | i, y, Foto.ok iw ih com :: rest =>
    let wh := _fit iw ih max_w max_h
    let cap := pyStrip com
    let evs := Ev.drawImage 40 (y - wh.2) wh.1 wh.2 ::
      (if cap = "" then [] else [Ev.drawText 40 (y - wh.2 - 12) (String.mk (cap.data.take 140))])
    if i % 2 == 1 && decide (rest ≠ []) then
      evs ++ Ev.pageBreak :: build_pdf_fotos (i + 1) (pageH - 50) rest
    else
      evs ++ build_pdf_fotos (i + 1) (y - wh.2 - 30) rest

/-- Modelled from the spec (claim C5 wording), for comparison with
`build_pdf_fotos`: a failing photo emits the placeholder line and then the
cursor advance and the after-every-second-photo page-break rule proceed
exactly as if a zero-height item had been drawn at that position. -/
def build_pdf_fotos_claimed : Nat → ℚ → List Foto → List Ev
  | _, _, [] => [Ev.pageBreak]
  | i, y, Foto.bad :: rest =>
    let evs := [Ev.drawText 40 y placeholderMsg]
    if i % 2 == 1 && decide (rest ≠ []) then
      evs ++ Ev.pageBreak :: build_pdf_fotos_claimed (i + 1) (pageH - 50) rest
    else
      evs ++ build_pdf_fotos_claimed (i + 1) (y - 0 - 30) rest
  | i, y, Foto.ok iw ih com :: rest =>
    let wh := _fit iw ih max_w max_h
    let cap := pyStrip com
    let evs := Ev.drawImage 40 (y - wh.2) wh.1 wh.2 ::
      (if cap = "" then [] else [Ev.drawText 40 (y - wh.2 - 12) (String.mk (cap.data.take 140))])
    if i % 2 == 1 && decide (rest ≠ []) then
      evs ++ Ev.pageBreak :: build_pdf_fotos_claimed (i + 1) (pageH - 50) rest
    else
      evs ++ build_pdf_fotos_claimed (i + 1) (y - wh.2 - 30) rest

/-- Recogniser for page-break events. -/
def isPageBreak : Ev → Bool
  | .pageBreak => true
  | _ => false

/-- Number of page breaks in a trace. -/
def countBreaks (l : List Ev) : Nat := l.countP isPageBreak

/-- Initial vertical cursor of the photo loop (app.py line 395). -/
def fotosStartY : ℚ := pageH - 110

/-- One row of the `reportes` table. -/
structure Reporte where
  id : Nat
  local_id : Nat
  usuario_id : Nat
  fecha_visita : Date
  notas : String
deriving DecidableEq, Repr

/-- One row of the `locales` table. -/
structure LocalRow where
  id : Nat
  cliente_id : Nat
  nombre_local : String
  codigo_local : String
  direccion : String
  ciudad : String
deriving DecidableEq, Repr

/-- One row of the `usuarios` table as needed by the report query. -/
structure Usuario where
  id : Nat
  nombre_completo : String
deriving DecidableEq, Repr

/-- One row of the report query of `build_pdf_cliente` (app.py lines
336-355): report fields joined with the store and the author name. -/
structure RRow where
  reporte_id : Nat
  fecha_visita : Date
  notas : String
  nombre_local : String
  codigo_local : String
  direccion : String
  ciudad : String
  trabajador : String
deriving DecidableEq, Repr

/-- Chronological strict order on dates, the SQL DATE order. -/
abbrev dateLt (a b : Date) : Prop :=
  a.year < b.year ∨ (a.year = b.year ∧
    (a.month < b.month ∨ (a.month = b.month ∧ a.day < b.day)))

/-- Lexicographic strict order on character lists by code point, the model
of SQL text comparison used for store names. -/
def charListLt : List Char → List Char → Bool
  | [], [] => false
  | [], _ :: _ => true
  | _ :: _, [] => false
  | a :: as, b :: bs => decide (a < b) || (a == b && charListLt as bs)

/-- The ORDER BY key comparison of the report query: by visit date, then
store name, then report id. -/
def rowLe (a b : RRow) : Prop :=
  dateLt a.fecha_visita b.fecha_visita ∨
    (a.fecha_visita = b.fecha_visita ∧
      (charListLt a.nombre_local.data b.nombre_local.data = true ∨
        (a.nombre_local = b.nombre_local ∧ a.reporte_id ≤ b.reporte_id)))

instance rowLeDecidable : DecidableRel rowLe := by
  unfold rowLe
  infer_instance

/-- Relational core of the report query of `build_pdf_cliente` (app.py
lines 336-355) before ORDER BY: join `reportes` with `locales` and
`usuarios`, keeping the rows of the given client whose visit date lies in
the closed BETWEEN range. -/
def reportes_rows (reportes : List Reporte) (locales : List LocalRow)
    (usuarios : List Usuario) (cliente_id : Nat) (desde hasta : Date) : List RRow :=
  reportes.flatMap (fun r =>
    (locales.filter (fun l => l.id == r.local_id && l.cliente_id == cliente_id
        && !decide (dateLt r.fecha_visita desde) && !decide (dateLt hasta r.fecha_visita))).flatMap
      (fun l => (usuarios.filter (fun u => u.id == r.usuario_id)).map
        (fun u => RRow.mk r.id r.fecha_visita r.notas l.nombre_local l.codigo_local
                    l.direccion l.ciudad u.nombre_completo)))

/-- The report query of `build_pdf_cliente`: its result set ordered by
(visit date, store name, report id), the ORDER BY of app.py line 352.
Being a pure function of its arguments it is deterministic across runs. -/
def fetch_reportes (reportes : List Reporte) (locales : List LocalRow)
    (usuarios : List Usuario) (cliente_id : Nat) (desde hasta : Date) : List RRow :=
  List.insertionSort rowLe (reportes_rows reportes locales usuarios cliente_id desde hasta)

/-- Section header text drawn for one report (app.py lines 386-390): visit
date and store name, with the store code in parentheses when non-empty. -/
def headerTitle (r : RRow) : String :=
  formatYMD r.fecha_visita ++ " · " ++ r.nombre_local ++
    (if r.codigo_local ≠ "" then " (" ++ r.codigo_local ++ ")" else "")

/-- Section order of the generated document: the headers of the fetched
reports in fetched order (app.py lines 374-390). -/
def sectionHeaders (reportes : List Reporte) (locales : List LocalRow)
    (usuarios : List Usuario) (cliente_id : Nat) (desde hasta : Date) : List String :=
  (fetch_reportes reportes locales usuarios cliente_id desde hasta).map headerTitle

/-- Claim C4: `_fit` returns `(iw*s, ih*s)` with `s = min(mw/iw, mh/ih)` for
positive intrinsic sizes, hence fits in the box and preserves the aspect
ratio; for a degenerate size it returns the box unscaled; and the two
concrete examples evaluate as the spec states. -/
theorem fit_spec :
    (∀ (iw ih : Int) (mw mh : ℚ), 0 < iw → 0 < ih →
      _fit iw ih mw mh =
        ((iw : ℚ) * min (mw / (iw : ℚ)) (mh / (ih : ℚ)),
         (ih : ℚ) * min (mw / (iw : ℚ)) (mh / (ih : ℚ))) ∧
      (_fit iw ih mw mh).1 ≤ mw ∧ (_fit iw ih mw mh).2 ≤ mh ∧
      (_fit iw ih mw mh).1 * (ih : ℚ) = (_fit iw ih mw mh).2 * (iw : ℚ)) ∧
    (∀ (iw ih : Int) (mw mh : ℚ), (iw ≤ 0 ∨ ih ≤ 0) → _fit iw ih mw mh = (mw, mh)) ∧
    _fit 1000 500 300 300 = (300, 150) ∧
    _fit 100 400 300 300 = (75, 300) := by
  refine ⟨?_, ?_, ?_, ?_⟩
  · intro iw ih mw mh hiw hih
    have hiw' : (0 : ℚ) < (iw : ℚ) := by exact_mod_cast hiw
    have hih' : (0 : ℚ) < (ih : ℚ) := by exact_mod_cast hih
    have hcond : ¬ ((iw : Int) ≤ 0 ∨ (ih : Int) ≤ 0) := by omega
    have heq : _fit iw ih mw mh =
        ((iw : ℚ) * min (mw / (iw : ℚ)) (mh / (ih : ℚ)),
         (ih : ℚ) * min (mw / (iw : ℚ)) (mh / (ih : ℚ))) := by
      simp only [_fit, if_neg hcond]
    refine ⟨heq, ?_, ?_, ?_⟩
    · rw [heq]
      calc (iw : ℚ) * min (mw / (iw : ℚ)) (mh / (ih : ℚ))
          ≤ (iw : ℚ) * (mw / (iw : ℚ)) :=
            mul_le_mul_of_nonneg_left (min_le_left _ _) (le_of_lt hiw')
        _ = mw := by field_simp
    · rw [heq]
      calc (ih : ℚ) * min (mw / (iw : ℚ)) (mh / (ih : ℚ))
          ≤ (ih : ℚ) * (mh / (ih : ℚ)) :=
            mul_le_mul_of_nonneg_left (min_le_right _ _) (le_of_lt hih')
        _ = mh := by field_simp
    · rw [heq]; ring
  · intro iw ih mw mh h
    unfold _fit
    rw [if_pos h]
  · norm_num [_fit, min_def, Prod.ext_iff]
  · norm_num [_fit, min_def, Prod.ext_iff]

/-- Witness for C4 at the concrete inputs of the spec examples. -/
theorem fit_spec_witness :
    ((0 : Int) < 1000 ∧ (0 : Int) < 500 ∧ (_fit 1000 500 300 300).1 ≤ 300) ∧
    (((-3 : Int) ≤ 0 ∨ (400 : Int) ≤ 0) ∧ _fit (-3) 400 300 300 = (300, 300)) :=
  ⟨⟨by norm_num, by norm_num,
     ((fit_spec.1 1000 500 300 300 (by norm_num) (by norm_num)).2.1)⟩,
   ⟨Or.inl (by norm_num), fit_spec.2.1 (-3) 400 300 300 (Or.inl (by norm_num))⟩⟩

/-- Claim C8: the active-flag write value is boolean `true` for a boolean
column and integer `1` otherwise; the read predicate is `col IS TRUE`
respectively `COALESCE(col,0)=1`; under both predicates NULL counts as
inactive, and the written value satisfies the predicate. -/
theorem activo_flag_spec :
    (_activo_value "bool" = PyVal.vBool true) ∧
    (∀ udt, udt ≠ "bool" → _activo_value udt = PyVal.vInt 1) ∧
    (_activo_where "bool" none = "activo IS TRUE") ∧
    (_activo_where "bool" (some "u") = "u.activo IS TRUE") ∧
    (∀ udt, udt ≠ "bool" →
      _activo_where udt none = "COALESCE(activo,0)=1" ∧
      _activo_where udt (some "u") = "COALESCE(u.activo,0)=1") ∧
    (∀ udt, activoPredHolds udt SqlVal.null = false) ∧
    (∀ udt, activoPredHolds udt (activoValueSql udt) = true) := by
  refine ⟨by decide, ?_, by decide, by decide, ?_, ?_, ?_⟩
  · intro udt h
    unfold _activo_value
    rw [if_neg h]
  · intro udt h
    constructor <;> (unfold _activo_where; rw [if_neg h]; decide)
  · intro udt
    by_cases h : udt = "bool" <;>
      simp [activoPredHolds, h, sqlIsTrue, sqlCoalesce0Eq1]
  · intro udt
    by_cases h : udt = "bool" <;>
      simp [activoPredHolds, activoValueSql, _activo_value, h, sqlIsTrue, sqlCoalesce0Eq1]

/-- Witness for C8 at the integer-typed column tag `int4`. -/
theorem activo_flag_spec_witness :
    ("int4" ≠ "bool") ∧ _activo_value "int4" = PyVal.vInt 1 ∧
    _activo_where "int4" none = "COALESCE(activo,0)=1" :=
  ⟨by decide, activo_flag_spec.2.1 "int4" (by decide),
   (activo_flag_spec.2.2.2.2.1 "int4" (by decide)).1⟩

/-- Serialisation of a hash state always yields 32 bytes. -/
theorem sha256StateBytes_length (st : Sha256State) :
    (sha256StateBytes st).length = 32 := rfl

/-- SHA-256 digests always have 32 bytes. -/
theorem sha256_length (msg : List Nat) : (sha256 msg).length = 32 :=
  sha256StateBytes_length _

/-- HMAC-SHA-256 outputs always have 32 bytes. -/
theorem hmacSha256_length (key msg : List Nat) : (hmacSha256 key msg).length = 32 := by
  unfold hmacSha256
  exact sha256_length _

/-- The PBKDF2 iteration core preserves a 32-byte accumulator. -/
theorem pbkdf2Iter_length (pw : List Nat) :
    ∀ (n : Nat) (u acc : List Nat), acc.length = 32 → (pbkdf2Iter pw n u acc).length = 32 := by
  intro n
  induction n with
  | zero => intro u acc h; exact h
  | succ m ih =>
    intro u acc h
    unfold pbkdf2Iter
    apply ih
    rw [List.length_zipWith, h, hmacSha256_length]
    omega

/-- Every PBKDF2 block has 32 bytes. -/
theorem pbkdf2F_length (pw salt : List Nat) (iters blk : Nat) :
    (pbkdf2F pw salt iters blk).length = 32 := by
  unfold pbkdf2F
  exact pbkdf2Iter_length pw _ _ _ (hmacSha256_length _ _)

/-- Claim C10: `hash_password` returns a digest of exactly 32 bytes (the
SHA-256 output length) for every password string and every salt. -/
theorem hash_password_length (password : String) (salt : List Nat) :
    (hash_password password salt).length = 32 := by
  unfold hash_password pbkdf2HmacSha256
  rw [show (32 + 31) / 32 = 1 from rfl, show List.range 1 = [0] from rfl, List.flatMap_cons,
      List.flatMap_nil, List.append_nil, List.length_take, pbkdf2F_length]
  omega

/-- Counterexample to claim C2: the date coercion raises `ValueError` on a
date-typed column given a non-parseable string, and the binary coercion
raises on a value outside its bytes/text/buffer/Noneing domain (Python
`bytes(-1)` raises `ValueError`), so the coercion layer is not total. -/
theorem coercion_totality_cex :
    _date_for "date" (.vStr "garbage") = .error .valueError ∧
    _as_bytes (.vInt (-1)) = .error .valueError := by
  constructor
  · rfl
  · rfl

/-- Claim C2 as amended: the active-flag and timestamp coercions are total;
the date coercion is total on date values, on datetime values (Python
`datetime` is a subclass of `date`, so it passes through on a date column
and is formatted date-only otherwise) and on strings that parse as
`%Y-%m-%d`; the binary coercion is total on `None`, buffers, byte strings
and text - but outside those domains the date and binary coercions raise
(see the counterexample). -/
theorem coercion_totality_amended :
    (∀ udt d, _date_for udt (.vDate d)
        = .ok (if udt = "date" then .vDate d else .vStr (formatYMD d))) ∧
    (∀ udt dt, _date_for udt (.vDateTime dt)
        = .ok (if udt = "date" then .vDateTime dt else .vStr (formatYMD dt.date))) ∧
    (∀ s d, strptimeYMD s = some d → _date_for "date" (.vStr s) = .ok (.vDate d)) ∧
    (∀ udt s, udt ≠ "date" → _date_for udt (.vStr s) = .ok (.vStr s)) ∧
    (∀ v : PyVal, ((∃ bs, v = .vBytes bs) ∨ (∃ bs, v = .vMemView bs) ∨
        (∃ s, v = .vStr s) ∨ v = .vNone) → (_as_bytes v).isOk = true) ∧
    (∀ udt now, _now_for udt now = .vDateTime now ∨
        _now_for udt now = .vDate now.date ∨
        _now_for udt now = .vStr (formatYMDHMS now)) ∧
    (∀ udt, _activo_value udt = .vBool true ∨ _activo_value udt = .vInt 1) := by
  refine ⟨?_, ?_, ?_, ?_, ?_, ?_, ?_⟩
  · intro udt d
    by_cases h : udt = "date" <;> simp [_date_for, h]
  · intro udt dt
    by_cases h : udt = "date" <;> simp [_date_for, h]
  · intro s d hs
    simp [_date_for, pyStr, hs]
  · intro udt s h
    simp [_date_for, h, pyStr]
  · intro v hv
    rcases hv with ⟨bs, rfl⟩ | ⟨bs, rfl⟩ | ⟨s, rfl⟩ | rfl
    · rfl
    · rfl
    · simp only [_as_bytes]
      cases bytesFromHex s <;> rfl
    · rfl
  · intro udt now
    unfold _now_for
    by_cases h1 : udt = "timestamp" ∨ udt = "timestamptz"
    · rw [if_pos h1]; exact Or.inl rfl
    · rw [if_neg h1]
      by_cases h2 : udt = "date"
      · rw [if_pos h2]; exact Or.inr (Or.inl rfl)
      · rw [if_neg h2]; exact Or.inr (Or.inr rfl)
  · intro udt
    unfold _activo_value
    by_cases h : udt = "bool"
    · rw [if_pos h]; exact Or.inl rfl
    · rw [if_neg h]; exact Or.inr rfl

/-- Witness for the amended C2 at concrete inputs: a parseable date string
coerces, and a text value is in the total domain of the binary coercion. -/
theorem coercion_totality_amended_witness :
    (strptimeYMD "2024-01-02" = some ⟨2024, 1, 2⟩ ∧
      _date_for "date" (.vStr "2024-01-02") = .ok (.vDate ⟨2024, 1, 2⟩)) ∧
    (((∃ bs, PyVal.vStr "xyz" = PyVal.vBytes bs) ∨
        (∃ bs, PyVal.vStr "xyz" = PyVal.vMemView bs) ∨
        (∃ s, PyVal.vStr "xyz" = PyVal.vStr s) ∨ PyVal.vStr "xyz" = PyVal.vNone) ∧
      (_as_bytes (PyVal.vStr "xyz")).isOk = true) :=
  ⟨⟨by decide, coercion_totality_amended.2.2.1 "2024-01-02" ⟨2024, 1, 2⟩ (by decide)⟩,
   ⟨Or.inr (Or.inr (Or.inl ⟨"xyz", rfl⟩)),
    coercion_totality_amended.2.2.2.2.1 (PyVal.vStr "xyz")
      (Or.inr (Or.inr (Or.inl ⟨"xyz", rfl⟩)))⟩⟩

/-- Claim C9: when the stored active-flag value has no integer conversion,
the account counts as active exactly when the lower-cased string form is one
of "1", "true", "t", "yes", "y"; and a login whose first matching row has an
unconvertible flag outside that list is rejected regardless of password. -/
theorem activo_fallback_spec :
    (∀ v, pyToInt v = none →
      activoCheck v = activoAllowList.contains (pyLowerStr (pyStr v))) ∧
    (∀ (db : List UserRow) (u p : String) (r : UserRow) (rest : List UserRow),
      db.filter (fun row => row.usuario == pyNormalize u) = r :: rest →
      pyToInt r.activo = none →
      activoAllowList.contains (pyLowerStr (pyStr r.activo)) = false →
      verify_login db u p = .ok none) := by
  constructor
  · intro v hv
    unfold activoCheck
    rw [hv]
  · intro db u p r rest hfil hint hlist
    unfold verify_login
    rw [hfil]
    have hact : activoCheck r.activo = false := by
      unfold activoCheck
      rw [hint, hlist]
    simp [hact]

/-- Witness for C9: a user row whose active flag is the text "active" (no
integer form, not in the accepted list) cannot log in. -/
theorem activo_fallback_witness :
    (([⟨1, "bob", "Bob", "admin", PyVal.vBytes [], PyVal.vBytes [], PyVal.vStr "active"⟩]
        : List UserRow).filter (fun row => row.usuario == pyNormalize "bob")
      = [⟨1, "bob", "Bob", "admin", PyVal.vBytes [], PyVal.vBytes [], PyVal.vStr "active"⟩]) ∧
    pyToInt (PyVal.vStr "active") = none ∧
    activoAllowList.contains (pyLowerStr (pyStr (PyVal.vStr "active"))) = false ∧
    verify_login [⟨1, "bob", "Bob", "admin", PyVal.vBytes [], PyVal.vBytes [],
        PyVal.vStr "active"⟩] "bob" "secret" = .ok none :=
  ⟨by decide, by decide, by decide,
   activo_fallback_spec.2
     [⟨1, "bob", "Bob", "admin", PyVal.vBytes [], PyVal.vBytes [], PyVal.vStr "active"⟩]
     "bob" "secret"
     ⟨1, "bob", "Bob", "admin", PyVal.vBytes [], PyVal.vBytes [], PyVal.vStr "active"⟩
     [] (by decide) (by decide) (by decide)⟩

/-- Empty traces have no breaks. -/
theorem countBreaks_nil : countBreaks [] = 0 := rfl

/-- Break count of a cons trace. -/
theorem countBreaks_cons (e : Ev) (l : List Ev) :
    countBreaks (e :: l) = countBreaks l + (if isPageBreak e then 1 else 0) :=
  List.countP_cons _ _ _

/-- Break count of an appended trace. -/
theorem countBreaks_append (l m : List Ev) :
    countBreaks (l ++ m) = countBreaks l + countBreaks m :=
  List.countP_append _ _ _

/-- The optional caption line contains no page break. -/
theorem countBreaks_capList (c : Prop) [Decidable c] (x y : ℚ) (s : String) :
    countBreaks (if c then [] else [Ev.drawText x y s]) = 0 := by
  split <;> rfl

/-- Appending a trace that ends in a page break ends in a page break. -/
theorem getLast?_append_pb (l m : List Ev) (h : m.getLast? = some Ev.pageBreak) :
    (l ++ m).getLast? = some Ev.pageBreak := by
  rw [List.getLast?_append, h]
  rfl

/-- Every photo-loop trace ends with the forced page break of the report. -/
theorem build_pdf_fotos_last :
    ∀ (fotos : List Foto) (i : Nat) (y : ℚ),
    (build_pdf_fotos i y fotos).getLast? = some Ev.pageBreak := by
  intro fotos
  induction fotos with
  | nil => intro i y; rfl
  | cons f rest ih =>
    intro i y
    cases f with
    | bad =>
      rw [show build_pdf_fotos i y (Foto.bad :: rest)
          = [Ev.drawText 40 y placeholderMsg] ++ build_pdf_fotos (i + 1) (y - 20) rest
          from rfl]
      exact getLast?_append_pb _ _ (ih _ _)
    | ok iw ihh com =>
      simp only [build_pdf_fotos]
      by_cases hc : (i % 2 == 1 && decide (rest ≠ [])) = true
      · rw [if_pos hc]
        apply getLast?_append_pb
        rw [show (Ev.pageBreak :: build_pdf_fotos (i + 1) (pageH - 50) rest)
            = [Ev.pageBreak] ++ build_pdf_fotos (i + 1) (pageH - 50) rest from rfl]
        exact getLast?_append_pb _ _ (ih _ _)
      · rw [if_neg hc]
        exact getLast?_append_pb _ _ (ih _ _)

/-- Counterexample to claim C5: with photos (good, failing, good) the code
issues no within-report page break (the break check sits inside the `try`
and is skipped when the photo fails), while the bookkeeping claimed by the
spec (as if a zero-height item had been drawn) would issue one; and with
photos (failing, good) the cursor after the failure drops by 20 points, not
by the 30 points a zero-height item would produce, so the traces differ. -/
theorem render_failure_cex :
    countBreaks (build_pdf_fotos 0 fotosStartY
        [Foto.ok 100 100 "", Foto.bad, Foto.ok 100 100 ""]) = 1 ∧
    countBreaks (build_pdf_fotos_claimed 0 fotosStartY
        [Foto.ok 100 100 "", Foto.bad, Foto.ok 100 100 ""]) = 2 ∧
    build_pdf_fotos 0 fotosStartY [Foto.ok 100 100 "", Foto.bad, Foto.ok 100 100 ""] ≠
      build_pdf_fotos_claimed 0 fotosStartY [Foto.ok 100 100 "", Foto.bad, Foto.ok 100 100 ""] ∧
    build_pdf_fotos 0 fotosStartY [Foto.bad, Foto.ok 100 100 ""] ≠
      build_pdf_fotos_claimed 0 fotosStartY [Foto.bad, Foto.ok 100 100 ""] := by
  have h1 : countBreaks (build_pdf_fotos 0 fotosStartY
      [Foto.ok 100 100 "", Foto.bad, Foto.ok 100 100 ""]) = 1 := by decide
  have h2 : countBreaks (build_pdf_fotos_claimed 0 fotosStartY
      [Foto.ok 100 100 "", Foto.bad, Foto.ok 100 100 ""]) = 2 := by decide
  have hfit : _fit 100 100 max_w max_h = (max_h, max_h) := by
    unfold _fit max_w max_h pageW pageH
    norm_num [min_def, Prod.ext_iff]
  have h3 : (build_pdf_fotos 0 fotosStartY [Foto.bad, Foto.ok 100 100 ""]).get? 1
      = some (Ev.drawImage 40 (fotosStartY - 20 - max_h) max_h max_h) := by
    simp [build_pdf_fotos, hfit, show pyStrip "" = "" from rfl]
  have h4 : (build_pdf_fotos_claimed 0 fotosStartY [Foto.bad, Foto.ok 100 100 ""]).get? 1
      = some (Ev.drawImage 40 (fotosStartY - 30 - max_h) max_h max_h) := by
    simp [build_pdf_fotos_claimed, hfit, show pyStrip "" = "" from rfl]
  have hy : fotosStartY - 20 - max_h ≠ fotosStartY - 30 - max_h := by
    unfold fotosStartY max_h pageH
    norm_num
  refine ⟨h1, h2, ?_, ?_⟩
  · intro h
    rw [h, h2] at h1
    exact absurd h1 (by norm_num)
  · intro h
    rw [h, h4] at h3
    have := Option.some.inj h3
    exact hy (Ev.drawImage.inj this).2.1.symm

/-- Claim C5 as amended: a photo whose decode or draw fails emits the
placeholder line at the current cursor and rendering continues with the next
photo, but the cursor drops by a fixed 20 points (not the 30 points of a
zero-height drawn item) and the after-every-second-photo page-break check is
skipped for that photo; the forced page break after the report is preserved
for every photo list. -/
theorem render_failure_amended :
    (∀ (i : Nat) (y : ℚ) (rest : List Foto),
      build_pdf_fotos i y (Foto.bad :: rest) =
        Ev.drawText 40 y placeholderMsg :: build_pdf_fotos (i + 1) (y - 20) rest) ∧
    (∀ (fotos : List Foto) (i : Nat) (y : ℚ),
      (build_pdf_fotos i y fotos).getLast? = some Ev.pageBreak) :=
  ⟨fun _ _ _ => rfl, build_pdf_fotos_last⟩

/-- Break count of the photo loop from an arbitrary enumeration index, for
photos that all render: one within-report break per completed photo pair
that is not final, plus the final forced break. -/
theorem build_pdf_fotos_count :
    ∀ (fotos : List Foto), (∀ f ∈ fotos, f.isOk = true) →
    ∀ (i : Nat) (y : ℚ),
    countBreaks (build_pdf_fotos i y fotos) = (fotos.length - 1 + i % 2) / 2 + 1 := by
  intro fotos
  induction fotos with
  | nil =>
    intro _ i y
    have hc : countBreaks (build_pdf_fotos i y []) = 1 := rfl
    rw [hc, List.length_nil]
    omega
  | cons f rest ih =>
    intro hok i y
    have hf : f.isOk = true := hok f (List.mem_cons_self f rest)
    have hrest : ∀ g ∈ rest, g.isOk = true := fun g hg => hok g (List.mem_cons_of_mem f hg)
    cases f with
    | bad => simp [Foto.isOk] at hf
    | ok iw ihh com =>
      simp only [build_pdf_fotos]
      by_cases hc : (i % 2 == 1 && decide (rest ≠ [])) = true
      · have hc2 := hc
        simp only [Bool.and_eq_true, beq_iff_eq, decide_eq_true_eq] at hc2
        obtain ⟨hpar, hne⟩ := hc2
        have hlen : rest.length ≠ 0 := by simpa [List.length_eq_zero] using hne
        rw [if_pos hc, countBreaks_append, countBreaks_cons, countBreaks_cons,
            countBreaks_capList, ih hrest]
        norm_num [isPageBreak, List.length_cons]
        omega
      · have hc3 : ¬ (i % 2 = 1 ∧ rest ≠ []) := by
          intro hand
          exact hc (by simp [hand.1, hand.2])
        have hc4 : i % 2 ≠ 1 ∨ rest.length = 0 := by
          by_cases h1 : i % 2 = 1
          · right
            by_contra h2
            exact hc3 ⟨h1, fun he => h2 (by simp [he])⟩
          · exact Or.inl h1
        rw [if_neg hc, countBreaks_append, countBreaks_cons, countBreaks_capList,
            ih hrest]
        norm_num [isPageBreak, List.length_cons]
        omega

/-- Claim C3: for a report whose photos all render, the photo loop emits one
within-report break per full pair that is not final plus the final forced
break - `(n-1)/2 + 1` in total, so exactly 3 for 5 photos (after photos 2,
4 and the forced one after photo 5) - every trace ends with the forced
break, and the 5-photo trace has its breaks exactly after the second and
fourth photo and at the end. -/
theorem pdf_pagination_spec :
    (∀ fotos : List Foto, (∀ f ∈ fotos, f.isOk = true) →
      countBreaks (build_pdf_fotos 0 fotosStartY fotos) = (fotos.length - 1) / 2 + 1) ∧
    (∀ (fotos : List Foto) (i : Nat) (y : ℚ),
      (build_pdf_fotos i y fotos).getLast? = some Ev.pageBreak) ∧
    ((build_pdf_fotos 0 fotosStartY (List.replicate 5 (Foto.ok 100 100 ""))).map isPageBreak
      = [false, false, true, false, false, true, false, true]) ∧
    countBreaks (build_pdf_fotos 0 fotosStartY (List.replicate 5 (Foto.ok 100 100 ""))) = 3 := by
  refine ⟨?_, build_pdf_fotos_last, by decide, by decide⟩
  intro fotos hok
  rw [build_pdf_fotos_count fotos hok 0 fotosStartY]
  omega

/-- Witness for C3: five successfully rendering photos yield exactly three
page breaks. -/
theorem pdf_pagination_spec_witness :
    (∀ f ∈ List.replicate 5 (Foto.ok 100 100 ""), f.isOk = true) ∧
    countBreaks (build_pdf_fotos 0 fotosStartY (List.replicate 5 (Foto.ok 100 100 ""))) = 3 :=
  ⟨by decide, pdf_pagination_spec.1 (List.replicate 5 (Foto.ok 100 100 "")) (by decide)⟩

/-- Under username uniqueness, the login query returns exactly the matching
row. -/
theorem filter_unique (db : List UserRow) (u : String)
    (hpw : db.Pairwise (fun a b => a.usuario ≠ b.usuario)) :
    ∀ r ∈ db, r.usuario = pyNormalize u →
      db.filter (fun x => x.usuario == pyNormalize u) = [r] := by
  induction db with
  | nil => intro r hr; cases hr
  | cons h t ih =>
    intro r hr hru
    have hpw2 := List.pairwise_cons.mp hpw
    rcases List.mem_cons.mp hr with rfl | hrt
    · rw [List.filter_cons_of_pos (by simp [hru])]
      congr 1
      apply List.filter_eq_nil_iff.mpr
      intro x hx
      simp only [beq_iff_eq]
      intro hxu
      exact hpw2.1 x hx (hru.trans hxu.symm)
    · rw [List.filter_cons_of_neg (by
        simp only [beq_iff_eq]
        intro hhu
        exact hpw2.1 r hrt (hhu.trans hru.symm))]
      exact ih hpw2.2 r hrt hru

/-- Reduction of `verify_login` once the login query result is known to be
a non-empty row list. -/
theorem verify_login_eq_cons (db : List UserRow) (u p : String) (r : UserRow)
    (rest : List UserRow)
    (hfil : db.filter (fun x => x.usuario == pyNormalize u) = r :: rest) :
    verify_login db u p =
      if activoCheck r.activo then check_creds p r else .ok none := by
  unfold verify_login
  rw [hfil]

/-- Reduction of the byte-coercion step once both coercions are known to
succeed. -/
theorem check_creds_eq (p : String) (r : UserRow) (salt stored : List Nat)
    (hsalt : _as_bytes r.pw_salt = .ok salt) (hst : _as_bytes r.pw_hash = .ok stored) :
    check_creds p r = check_hash p salt stored r := by
  unfold check_creds
  rw [hsalt, hst]

/-- Reduction of the byte-coercion step when the salt coercion fails. -/
theorem check_creds_eq_err_salt (p : String) (r : UserRow) (e : PyErr)
    (hsalt : _as_bytes r.pw_salt = .error e) : check_creds p r = .error e := by
  unfold check_creds
  rw [hsalt]

/-- Reduction of the byte-coercion step when the hash coercion fails. -/
theorem check_creds_eq_err_hash (p : String) (r : UserRow) (salt : List Nat) (e : PyErr)
    (hsalt : _as_bytes r.pw_salt = .ok salt) (hst : _as_bytes r.pw_hash = .error e) :
    check_creds p r = .error e := by
  unfold check_creds
  rw [hsalt, hst]

/-- The hash comparison accepts exactly on hash equality. -/
theorem check_hash_pos (p : String) (salt stored : List Nat) (r : UserRow)
    (h : hash_password p salt = stored) :
    check_hash p salt stored r = .ok (some ⟨r.id, r.usuario, r.nombre_completo, r.rol⟩) := by
  unfold check_hash
  rw [if_pos h]

/-- The hash comparison rejects on hash inequality. -/
theorem check_hash_neg (p : String) (salt stored : List Nat) (r : UserRow)
    (h : hash_password p salt ≠ stored) : check_hash p salt stored r = .ok none := by
  unfold check_hash
  rw [if_neg h]

/-- Claim C1: under username uniqueness, `verify_login` returns an identity
record exactly when a row with the normalised username exists whose active
flag passes the check and whose stored hash (coerced to bytes) equals the
hash of the candidate password with the stored salt; and a matching row
whose active flag fails the check is rejected for every password. -/
theorem verify_login_spec :
    ∀ (db : List UserRow) (u p : String),
      db.Pairwise (fun a b => a.usuario ≠ b.usuario) →
      (((∃ ident, verify_login db u p = .ok (some ident)) ↔
        (∃ r ∈ db, r.usuario = pyNormalize u ∧ activoCheck r.activo = true ∧
          ∃ salt stored, _as_bytes r.pw_salt = .ok salt ∧
            _as_bytes r.pw_hash = .ok stored ∧ stored = hash_password p salt)) ∧
       (∀ r ∈ db, r.usuario = pyNormalize u → activoCheck r.activo = false →
          verify_login db u p = .ok none)) := by
  intro db u p hpw
  refine ⟨⟨?_, ?_⟩, ?_⟩
  · rintro ⟨ident, hv⟩
    cases hfil : db.filter (fun x => x.usuario == pyNormalize u) with
    | nil =>
      unfold verify_login at hv
      rw [hfil] at hv
      simp at hv
    | cons r rest =>
      rw [verify_login_eq_cons db u p r rest hfil] at hv
      have hrmem : r ∈ db.filter (fun x => x.usuario == pyNormalize u) := by
        rw [hfil]
        exact List.mem_cons_self r rest
      have hr := List.mem_filter.mp hrmem
      have hru : r.usuario = pyNormalize u := by simpa using hr.2
      by_cases hact : activoCheck r.activo = true
      · rw [if_pos hact] at hv
        cases hsalt : _as_bytes r.pw_salt with
        | error e =>
          rw [check_creds_eq_err_salt p r e hsalt] at hv
          cases hv
        | ok salt =>
          cases hst : _as_bytes r.pw_hash with
          | error e =>
            rw [check_creds_eq_err_hash p r salt e hsalt hst] at hv
            cases hv
          | ok stored =>
            rw [check_creds_eq p r salt stored hsalt hst] at hv
            by_cases heq : hash_password p salt = stored
            · exact ⟨r, hr.1, hru, hact, salt, stored, hsalt, hst, heq.symm⟩
            · rw [check_hash_neg p salt stored r heq] at hv
              simp at hv
      · rw [if_neg hact] at hv
        simp at hv
  · rintro ⟨r, hrdb, hru, hact, salt, stored, hsalt, hst, heqh⟩
    have hfil := filter_unique db u hpw r hrdb hru
    refine ⟨⟨r.id, r.usuario, r.nombre_completo, r.rol⟩, ?_⟩
    rw [verify_login_eq_cons db u p r [] hfil, if_pos hact,
        check_creds_eq p r salt stored hsalt hst, check_hash_pos p salt stored r heqh.symm]
  · intro r hrdb hru hact
    have hfil := filter_unique db u hpw r hrdb hru
    rw [verify_login_eq_cons db u p r [] hfil, if_neg (by simp [hact])]

/-- Witness for C1: a single-row table whose user is inactive rejects the
login even though the username matches. -/
theorem verify_login_spec_witness :
    (([⟨1, "alice", "Alice", "admin", PyVal.vBytes [], PyVal.vBytes [], PyVal.vBool false⟩]
        : List UserRow).Pairwise (fun a b => a.usuario ≠ b.usuario)) ∧
    activoCheck (PyVal.vBool false) = false ∧
    verify_login [⟨1, "alice", "Alice", "admin", PyVal.vBytes [], PyVal.vBytes [],
        PyVal.vBool false⟩] "alice" "secret" = .ok none :=
  ⟨by simp, by decide,
   (verify_login_spec
      [⟨1, "alice", "Alice", "admin", PyVal.vBytes [], PyVal.vBytes [], PyVal.vBool false⟩]
      "alice" "secret" (by simp)).2
     ⟨1, "alice", "Alice", "admin", PyVal.vBytes [], PyVal.vBytes [], PyVal.vBool false⟩
     (List.mem_cons_self _ _) (by decide) (by decide)⟩

/-- Strict character-list order is transitive. -/
theorem charListLt_trans :
    ∀ a b c : List Char, charListLt a b = true → charListLt b c = true →
      charListLt a c = true := by
  intro a
  induction a with
  | nil =>
    intro b c h1 h2
    cases b with
    | nil => cases h1
    | cons y ys =>
      cases c with
      | nil => cases h2
      | cons z zs => rfl
  | cons x xs ih =>
    intro b c h1 h2
    cases b with
    | nil => cases h1
    | cons y ys =>
      cases c with
      | nil => cases h2
      | cons z zs =>
        simp only [charListLt, Bool.or_eq_true, Bool.and_eq_true, decide_eq_true_eq,
          beq_iff_eq] at h1 h2 ⊢
        rcases h1 with hxy | ⟨hxy, hrec1⟩
        · rcases h2 with hyz | ⟨hyz, hrec2⟩
          · exact Or.inl (lt_trans hxy hyz)
          · exact Or.inl (by rw [← hyz]; exact hxy)
        · rcases h2 with hyz | ⟨hyz, hrec2⟩
          · exact Or.inl (by rw [hxy]; exact hyz)
          · exact Or.inr ⟨hxy.trans hyz, ih ys zs hrec1 hrec2⟩

/-- Strict character-list order is trichotomous. -/
theorem charListLt_trichot :
    ∀ a b : List Char, charListLt a b = true ∨ a = b ∨ charListLt b a = true := by
  intro a
  induction a with
  | nil =>
    intro b
    cases b with
    | nil => exact Or.inr (Or.inl rfl)
    | cons y ys => exact Or.inl rfl
  | cons x xs ih =>
    intro b
    cases b with
    | nil => exact Or.inr (Or.inr rfl)
    | cons y ys =>
      rcases lt_trichotomy x y with hxy | hxy | hxy
      · exact Or.inl (by simp [charListLt, hxy])
      · rcases ih ys with h | h | h
        · exact Or.inl (by simp [charListLt, hxy, h])
        · exact Or.inr (Or.inl (by rw [hxy, h]))
        · exact Or.inr (Or.inr (by simp [charListLt, hxy.symm, h]))
      · exact Or.inr (Or.inr (by simp [charListLt, hxy]))

/-- Chronological date order is transitive. -/
theorem dateLt_trans {a b c : Date} (h1 : dateLt a b) (h2 : dateLt b c) : dateLt a c := by
  obtain ⟨y1, m1, d1⟩ := a
  obtain ⟨y2, m2, d2⟩ := b
  obtain ⟨y3, m3, d3⟩ := c
  simp only [dateLt] at h1 h2 ⊢
  omega

/-- Chronological date order is trichotomous. -/
theorem dateLt_trichot (a b : Date) : dateLt a b ∨ a = b ∨ dateLt b a := by
  obtain ⟨y1, m1, d1⟩ := a
  obtain ⟨y2, m2, d2⟩ := b
  simp only [dateLt, Date.mk.injEq]
  omega

/-- Strings with equal character lists are equal. -/
theorem string_data_inj (s t : String) (h : s.data = t.data) : s = t := by
  cases s
  cases t
  exact congrArg String.mk h

/-- The ORDER BY key comparison is transitive. -/
theorem rowLe_trans : ∀ a b c : RRow, rowLe a b → rowLe b c → rowLe a c := by
  intro a b c h1 h2
  unfold rowLe at h1 h2 ⊢
  rcases h1 with hd1 | ⟨he1, hn1⟩
  · rcases h2 with hd2 | ⟨he2, hn2⟩
    · exact Or.inl (dateLt_trans hd1 hd2)
    · exact Or.inl (by rw [← he2]; exact hd1)
  · rcases h2 with hd2 | ⟨he2, hn2⟩
    · exact Or.inl (by rw [he1]; exact hd2)
    · refine Or.inr ⟨he1.trans he2, ?_⟩
      rcases hn1 with hl1 | ⟨hne1, hid1⟩
      · rcases hn2 with hl2 | ⟨hne2, hid2⟩
        · exact Or.inl (charListLt_trans _ _ _ hl1 hl2)
        · exact Or.inl (by rw [← hne2]; exact hl1)
      · rcases hn2 with hl2 | ⟨hne2, hid2⟩
        · exact Or.inl (by rw [hne1]; exact hl2)
        · exact Or.inr ⟨hne1.trans hne2, le_trans hid1 hid2⟩

/-- The ORDER BY key comparison is total. -/
theorem rowLe_total : ∀ a b : RRow, rowLe a b ∨ rowLe b a := by
  intro a b
  unfold rowLe
  rcases dateLt_trichot a.fecha_visita b.fecha_visita with hd | hd | hd
  · exact Or.inl (Or.inl hd)
  · rcases charListLt_trichot a.nombre_local.data b.nombre_local.data with hn | hn | hn
    · exact Or.inl (Or.inr ⟨hd, Or.inl hn⟩)
    · have hnames : a.nombre_local = b.nombre_local := string_data_inj _ _ hn
      rcases Nat.le_total a.reporte_id b.reporte_id with hid | hid
      · exact Or.inl (Or.inr ⟨hd, Or.inr ⟨hnames, hid⟩⟩)
      · exact Or.inr (Or.inr ⟨hd.symm, Or.inr ⟨hnames.symm, hid⟩⟩)
    · exact Or.inr (Or.inr ⟨hd.symm, Or.inl hn⟩)
  · exact Or.inr (Or.inl hd)

instance rowLeIsTrans : IsTrans RRow rowLe := ⟨rowLe_trans⟩

instance rowLeIsTotal : IsTotal RRow rowLe := ⟨rowLe_total⟩

/-- Claim C7: the fetched report list is sorted by (visit date, store name,
report id), it is a permutation of the underlying relational result (ORDER
BY reorders, never adds or drops rows), and on the three-report example of
the spec the document section order is 2024-01-01/A, 2024-01-02/A,
2024-01-03/B.  Both functions are pure, so the order is deterministic for
the same data. -/
theorem report_order_spec :
    (∀ (reportes : List Reporte) (locales : List LocalRow) (usuarios : List Usuario)
        (cliente_id : Nat) (desde hasta : Date),
      List.Sorted rowLe (fetch_reportes reportes locales usuarios cliente_id desde hasta)) ∧
    (∀ (reportes : List Reporte) (locales : List LocalRow) (usuarios : List Usuario)
        (cliente_id : Nat) (desde hasta : Date),
      (fetch_reportes reportes locales usuarios cliente_id desde hasta).Perm
        (reportes_rows reportes locales usuarios cliente_id desde hasta)) ∧
    (sectionHeaders
        [⟨1, 1, 5, ⟨2024, 1, 3⟩, ""⟩, ⟨2, 2, 5, ⟨2024, 1, 1⟩, ""⟩, ⟨3, 3, 5, ⟨2024, 1, 2⟩, ""⟩]
        [⟨1, 7, "B", "", "", ""⟩, ⟨2, 7, "A", "", "", ""⟩, ⟨3, 7, "A", "", "", ""⟩]
        [⟨5, "W"⟩] 7 ⟨2024, 1, 1⟩ ⟨2024, 12, 31⟩
      = ["2024-01-01 · A", "2024-01-02 · A", "2024-01-03 · B"]) := by
  refine ⟨?_, ?_, ?_⟩
  · intro rs ls us cid d1 d2
    exact List.sorted_insertionSort rowLe _
  · intro rs ls us cid d1 d2
    exact List.perm_insertionSort rowLe _
  · decide
